import Mathlib

/-!
Shallow embedding of the `assert_bound` crate (src/lib.rs): the two macros
`assert_bound!` and `as_opaque!`.  Effectful Rust expressions are modelled as
state transformers `σ → α × σ`; the macro expansions are transcribed from the
macro bodies, statement by statement.  The bound-list grammar accepted by both
macros is modelled as a token-level parser mirroring the `macro_rules!`
matchers.
-/

namespace AssertBoundCrate

/-- An effectful source expression (`$e:expr`) over a mutable program state `σ`
producing a value of type `α`: evaluating it yields a value and a new state. -/
def Expr (σ α : Type) : Type := σ → α × σ

/-- A shared reference `&T`, as produced by the `&$e` argument expression. -/
structure Ref (α : Type) : Type where
  deref : α

/-- The verification function emitted by `assert_bound!` (src/lib.rs lines
79-84): `fn assert_bound<__EXPR_TYPE>(_: &__EXPR_TYPE) where ... {}` — its
single parameter is a reference and its body is empty, so it is a pure
function returning unit. -/
def assert_bound {α : Type} ( _r : Ref α) : Unit := ()

/-- The body of the zero-argument closure emitted by `assert_bound!`
(src/lib.rs lines 86-90), transcribed statement by statement:
`let expr = $e;` evaluates the expression once (`p`); the argument `&$e` of
`assert_bound(&$e);` (line 88) substitutes the expression text a second time,
so it is evaluated again (`q`); finally `expr` (the first value) is returned
in the state left by the second evaluation. -/
def assert_bound_invoke {σ α : Type} (e : Expr σ α) (s : σ) : α × σ :=
  let p := e s
  let q := e p.2
  let _u := assert_bound (Ref.mk q.1)
  (p.1, q.2)

/-- How the formal parameter of a generated function is taken. -/
inductive ParamMode : Type
  | byRef
  | byValue
deriving DecidableEq

/-- One parsed capability bound: a dotted path of identifiers plus the
generic type arguments, mirroring
`$head:ident $( :: $tail:ident )* $( < $param:ty $(, $p:ty)* > )?`. -/
inductive Ty : Type
  | path (segs : List String) (args : List Ty)

/-- A capability bound as recorded in the data model: a dotted name and its
generic arguments. -/
structure Bound : Type where
  segs : List String
  args : List Ty

/-- The artifact generated by a use of `assert_bound!` (src/lib.rs lines
66-93): the where-clause constraints placed on `__EXPR_TYPE` (lines 82-83),
the mode of the verification function's single parameter (line 80: `&`), and
the expansion itself — an expression that constructs the deferred closure
without touching the state. -/
structure AssertGenerated (σ α : Type) : Type where
  whereBounds : List Bound
  verifyParam : ParamMode
  construct : Expr σ (σ → α × σ)

/-- The expansion of `assert_bound!($e => caps)`: a lambda is returned, so
constructing it leaves the state unchanged; only invoking it runs
`assert_bound_invoke`. -/
def assert_bound_expand {σ α : Type} (e : Expr σ α) (caps : List Bound) :
    AssertGenerated σ α where
  whereBounds := caps
  verifyParam := ParamMode.byRef
  construct := fun s => (fun s2 => assert_bound_invoke e s2, s)

/-- A concrete side-effecting expression: reads a counter and increments it,
modelling Rust `{ let v = c; c += 1; v }`. -/
def tick : Expr Nat Nat := fun s => (s, s + 1)

/-- Invoking the closure produced by `assert_bound!` `n` times in sequence,
collecting the returned values. -/
def invokeN {σ α : Type} (e : Expr σ α) : Nat → σ → List α × σ
  | 0, s => ([], s)
  | n + 1, s =>
      let p := assert_bound_invoke e s
      let q := invokeN e n p.2
      (p.1 :: q.1, q.2)

/-- The function emitted by `as_opaque!` (src/lib.rs lines 152-162):
`fn as_opaque<'lifetime, __EXPR_TYPE>(expr: __EXPR_TYPE) -> impl ... { expr }`
— the body returns its input unchanged. -/
def as_opaque_fn {α : Type} (expr : α) : α := expr

/-- The runtime semantics of the block emitted by `as_opaque!` (src/lib.rs
lines 149-167): `let expr = $e;` evaluates the expression once, immediately;
`let opaque = as_opaque::<$lifetime, _>(expr);` applies the wrapping
function to the already computed value; the block yields that result. -/
def as_opaque_run {σ α : Type} (e : Expr σ α) (s : σ) : α × σ :=
  let p := e s
  let o := as_opaque_fn p.1
  (o, p.2)

/-- A lifetime token: the `$lifetime:tt` argument of `as_opaque!`. -/
inductive Lifetime : Type
  | static
  | named (name : String)
deriving DecidableEq

/-- The artifact generated by a use of `as_opaque!`: the bounds and lifetime
of the `impl ...` return type (lines 153-155), the where-clause constraints
(lines 157-159), and the runtime semantics of the emitted block. -/
structure OpaqueGenerated (σ α : Type) : Type where
  returnBounds : List Bound
  returnLifetime : Lifetime
  whereBounds : List Bound
  run : σ → α × σ

/-- The first arm of `as_opaque!` (src/lib.rs lines 140-168): the explicit
lifetime is spliced into the return type, every capability bound appears both
in the `impl` return type and in the where clause, and the block evaluates
the expression eagerly. -/
def as_opaque_arm {σ α : Type} (e : Expr σ α) (caps : List Bound)
    (l : Lifetime) : OpaqueGenerated σ α where
  returnBounds := caps
  returnLifetime := l
  whereBounds := caps
  run := fun s => as_opaque_run e s

/-- The macro `as_opaque!` with its two arms: with an explicit lifetime it
expands via the first arm; without one (src/lib.rs lines 170-184) it
re-invokes itself with `; 'static` appended. -/
def as_opaque_expand {σ α : Type} (e : Expr σ α) (caps : List Bound) :
    Option Lifetime → OpaqueGenerated σ α
  | some l => as_opaque_arm e caps l
  | none => as_opaque_arm e caps Lifetime.static

/-- A token of the bound-list grammar shared by both macros: identifiers, the
path separator `::`, angle brackets, the comma, and the conjunction `+`. -/
inductive Tok : Type
  | ident (name : String)
  | pathSep
  | langle
  | rangle
  | comma
  | plus
deriving DecidableEq

/-- Parse the tail of a dotted path, mirroring `$( :: $tail:ident )*`: consume
`:: ident` pairs as long as they appear. -/
def parsePathTail (acc : List String) : List Tok → List String × List Tok
  | Tok.pathSep :: Tok.ident s :: rest => parsePathTail (acc ++ [s]) rest
  | toks => (acc, toks)

mutual

/-- Parse one type argument (a `$param:ty` fragment, restricted to the
path-with-generic-arguments shapes this grammar deals in, recursively): a
dotted path optionally followed by `< ty, ... >` with a mandatory closing
bracket.  `fuel` bounds the recursion depth. -/
def parseTy : Nat → List Tok → Option (Ty × List Tok)
  | 0, _ => none
  | Nat.succ fuel, Tok.ident s :: rest =>
      let pr := parsePathTail [s] rest
      match pr.2 with
      | Tok.langle :: rest2 =>
          match parseTyList fuel rest2 with
          | some (args, Tok.rangle :: rest3) => some (Ty.path pr.1 args, rest3)
          | _ => none
      | _ => some (Ty.path pr.1 [], pr.2)
  | Nat.succ _, _ => none

/-- Parse a comma-separated, non-empty list of type arguments, mirroring
`$param:ty $(, $p:ty)*`. -/
def parseTyList : Nat → List Tok → Option (List Ty × List Tok)
  | 0, _ => none
  | Nat.succ fuel, toks =>
      match parseTy fuel toks with
      | some (t, Tok.comma :: rest) =>
          match parseTyList fuel rest with
          | some (ts, rest2) => some (t :: ts, rest2)
          | none => none
      | some (t, rest) => some ([t], rest)
      | none => none

end

/-- Parse one capability bound, mirroring
`$head:ident $( :: $tail:ident )* $( < $param:ty $(, $p:ty)* > )?`:
the leading identifier is mandatory, the generic-argument group is optional
but must be bracket-balanced. -/
def parseBound : Nat → List Tok → Option (Bound × List Tok)
  | 0, _ => none
  | Nat.succ fuel, Tok.ident s :: rest =>
      let pr := parsePathTail [s] rest
      match pr.2 with
      | Tok.langle :: rest2 =>
          match parseTyList fuel rest2 with
          | some (args, Tok.rangle :: rest3) => some (⟨pr.1, args⟩, rest3)
          | _ => none
      | _ => some (⟨pr.1, []⟩, pr.2)
  | Nat.succ _, _ => none

/-- After the first bound: consume `+ bound` groups, mirroring
`$(+ $head2:ident ...)*`, until the input is exhausted; a `+` not followed by
a complete bound, or any leftover token, rejects the input. -/
def parseBoundsAux : Nat → List Bound → List Tok → Option (List Bound)
  | _, acc, [] => some acc
  | 0, _, _ :: _ => none
  | Nat.succ fuel, acc, Tok.plus :: rest =>
      match parseBound fuel rest with
      | some pr => parseBoundsAux fuel (acc ++ [pr.1]) pr.2
      | none => none
  | Nat.succ _, _, _ :: _ => none

/-- The bound-list grammar of both macros: one mandatory capability bound
followed by zero or more `+ bound` groups, consuming the whole input. -/
def parseBoundList (toks : List Tok) : Option (List Bound) :=
  match parseBound (toks.length + 1) toks with
  | some pr => parseBoundsAux (toks.length + 1) [pr.1] pr.2
  | none => none

/-- Modelled from the spec: the host compiler's capability check on the
wrapped value is absent from src (it lives in the compiler, not this crate).
Per the spec, calling code sees only the existential return type, so an
operation on the wrapped value is accepted exactly when its capability is
among the bounds of that return type; the concrete underlying type is
invisible to the caller. -/
def opaqueUseOk {σ α : Type} (g : OpaqueGenerated σ α) (op : Bound) : Prop :=
  op ∈ g.returnBounds

/-- A concrete one-segment capability bound, used in witnesses. -/
def boundA : Bound := ⟨["A"], []⟩

/-- A second concrete capability bound, distinct from `boundA`. -/
def boundB : Bound := ⟨["B"], []⟩

/-- Helper: `parseBoundsAux` only ever extends its accumulator, so a non-empty
accumulator yields a non-empty result. -/
theorem parseBoundsAux_ne_nil (fuel : Nat) :
    ∀ (acc : List Bound) (toks : List Tok) (bs : List Bound),
      acc ≠ [] → parseBoundsAux fuel acc toks = some bs → bs ≠ [] := by
  induction fuel with
  | zero =>
    intro acc toks bs hacc h
    cases toks with
    | nil =>
      simp only [parseBoundsAux, Option.some.injEq] at h
      exact h ▸ hacc
    | cons t ts => simp [parseBoundsAux] at h
  | succ fuel ih =>
    intro acc toks bs hacc h
    cases toks with
    | nil =>
      simp only [parseBoundsAux, Option.some.injEq] at h
      exact h ▸ hacc
    | cons t ts =>
      cases t with
      | plus =>
        simp only [parseBoundsAux] at h
        cases hp : parseBound fuel ts with
        | none => rw [hp] at h; simp at h
        | some pr =>
          rw [hp] at h
          exact ih (acc ++ [pr.1]) pr.2 bs (by simp) h
      | ident s => simp [parseBoundsAux] at h
      | pathSep => simp [parseBoundsAux] at h
      | langle => simp [parseBoundsAux] at h
      | rangle => simp [parseBoundsAux] at h
      | comma => simp [parseBoundsAux] at h

/-- Claim C1: the claim states that invoking the callable evaluates the
expression exactly once per invocation.  The code does not: line 88 of
src/lib.rs passes `&$e` (re-substituting the expression text) instead of
`&expr`, so each invocation evaluates the expression twice.  On the counter
expression `tick`, one invocation from state 0 leaves the counter at 2 — a
single evaluation (`tick 0`) would leave it at 1 — while returning the first
evaluation's value 0. -/
theorem assert_bound_invoke_double_eval :
    assert_bound_invoke tick 0 = (0, 2) ∧ assert_bound_invoke tick 0 ≠ tick 0 := by
  decide

/-- Claim C2: the block emitted by `as_opaque!` evaluates the expression
exactly once, immediately: its effect on the state is exactly that of a
single evaluation of the expression, and its value is the wrapping function
applied to the value already computed before that function is invoked. -/
theorem as_opaque_run_eager {σ α : Type} (e : Expr σ α) (caps : List Bound)
    (lt : Option Lifetime) (s : σ) :
    (as_opaque_expand e caps lt).run s = e s ∧
      (as_opaque_expand e caps lt).run s = (as_opaque_fn (e s).1, (e s).2) := by
  cases lt <;> exact ⟨rfl, rfl⟩

/-- Claim C3: constructing the deferred callable emitted by `assert_bound!`
does not evaluate the expression: the state after constructing it is the
construction-time state unchanged, and the constructed value is exactly the
closure that performs the evaluation later. -/
theorem assert_bound_construct_no_eval {σ α : Type} (e : Expr σ α)
    (caps : List Bound) (s : σ) :
    ((assert_bound_expand e caps).construct s).2 = s ∧
      ((assert_bound_expand e caps).construct s).1
        = fun s2 => assert_bound_invoke e s2 :=
  ⟨rfl, rfl⟩

/-- Claim C4: the artifact of `as_opaque!` supports exactly the capabilities
of the declared list: a use of a capability outside the list is rejected even
when the concrete type supports it (the check never consults the concrete
type), and a capability is usable on the artifact exactly when it is in the
declared list. -/
theorem as_opaque_capability_hiding {σ α : Type} (e : Expr σ α)
    (caps : List Bound) (lt : Option Lifetime) (op : Bound)
    (concreteSupports : Bound → Prop) ( _hconc : concreteSupports op)
    (hnot : op ∉ caps) :
    ¬ opaqueUseOk (as_opaque_expand e caps lt) op ∧
      ∀ c : Bound, opaqueUseOk (as_opaque_expand e caps lt) c ↔ c ∈ caps := by
  cases lt <;> exact ⟨hnot, fun c => Iff.rfl⟩

/-- Witness for C4 at a concrete input: the bound `boundB` is not usable on a
value wrapped with the single declared bound `boundA`. -/
theorem as_opaque_capability_hiding_witness :
    ¬ opaqueUseOk (as_opaque_expand tick [boundA] none) boundB ∧
      ∀ c : Bound, opaqueUseOk (as_opaque_expand tick [boundA] none) c ↔ c ∈ [boundA] :=
  as_opaque_capability_hiding tick [boundA] none boundB (fun _ => True) trivial
    (by simp [boundA, boundB, Bound.mk.injEq])

/-- Claim C5: the generated wrapping function is the identity on its input,
so the wrap expression's value equals the expression's value. -/
theorem as_opaque_fn_identity {σ α : Type} (v : α) (e : Expr σ α)
    (caps : List Bound) (lt : Option Lifetime) (s : σ) :
    as_opaque_fn v = v ∧ ((as_opaque_expand e caps lt).run s).1 = (e s).1 := by
  cases lt <;> exact ⟨rfl, rfl⟩

/-- Claim C6: omitting the lifetime in `as_opaque!` produces the same
generated artifact as supplying the unbounded lifetime explicitly: the second
macro arm re-invokes the first with the static lifetime appended. -/
theorem as_opaque_default_lifetime {σ α : Type} (e : Expr σ α)
    (caps : List Bound) :
    as_opaque_expand e caps none
      = as_opaque_expand e caps (some Lifetime.static) := rfl

/-- Claim C7: the verification function emitted by `assert_bound!` takes its
single parameter by reference, verification returns unit without touching the
value, and after verification the value of the expression is still what the
callable returns, unchanged. -/
theorem assert_bound_takes_ref {σ α : Type} (e : Expr σ α) (caps : List Bound)
    (r : Ref α) (s : σ) :
    (assert_bound_expand e caps).verifyParam = ParamMode.byRef ∧
      assert_bound r = () ∧
      (assert_bound_invoke e s).1 = (e s).1 :=
  ⟨rfl, rfl, rfl⟩

/-- Claim C8: the bound-list grammar accepts one or more bounds separated by
the conjunction token (and never yields an empty capability list), and
rejects the empty list, a dangling separator, and unbalanced
generic-argument brackets. -/
theorem parseBoundList_grammar :
    (∀ (toks : List Tok) (bs : List Bound),
        parseBoundList toks = some bs → bs ≠ []) ∧
      parseBoundList [] = none ∧
      parseBoundList [Tok.ident "A", Tok.plus] = none ∧
      parseBoundList [Tok.ident "A", Tok.langle, Tok.ident "B"] = none ∧
      parseBoundList [Tok.ident "A", Tok.plus, Tok.ident "B", Tok.langle,
          Tok.ident "C", Tok.rangle]
        = some [⟨["A"], []⟩, ⟨["B"], [Ty.path ["C"] []]⟩] := by
  refine ⟨?_, rfl, rfl, rfl, rfl⟩
  intro toks bs h
  unfold parseBoundList at h
  cases hp : parseBound (toks.length + 1) toks with
  | none => rw [hp] at h; simp at h
  | some pr =>
    rw [hp] at h
    exact parseBoundsAux_ne_nil (toks.length + 1) [pr.1] pr.2 bs (by simp) h

/-- Witness for C8 at a concrete input: a successfully parsed bound list is
non-empty. -/
theorem parseBoundList_grammar_witness : ([⟨["A"], []⟩] : List Bound) ≠ [] :=
  parseBoundList_grammar.1 [Tok.ident "A"] [⟨["A"], []⟩] rfl

/-- Claim C9: the generated verification function has an empty body — it is
the constant unit function — and invoking the callable produces a result
determined solely by evaluations of the expression: verification contributes
no side effect and no transformation of the value. -/
theorem assert_bound_empty_body {σ α : Type} (r : Ref α) (e : Expr σ α)
    (s : σ) :
    assert_bound r = () ∧
      assert_bound_invoke e s = ((e s).1, (e (e s).2).2) :=
  ⟨rfl, rfl⟩

/-- Claim C10: the callable caches nothing: each invocation re-evaluates the
expression in the current state and returns its freshly computed value; on
the counter expression two invocations return the distinct values 0 and 2. -/
theorem assert_bound_no_caching {σ α : Type} (e : Expr σ α) (n : Nat)
    (s : σ) :
    (invokeN e (n + 1) s).1
        = (e s).1 :: (invokeN e n (assert_bound_invoke e s).2).1 ∧
      (invokeN tick 2 0).1 = [0, 2] :=
  ⟨rfl, rfl⟩

end AssertBoundCrate
